import Mathlib

/-!
Shallow embedding of the acquisition-and-packaging pipeline of the
`boox-serve` repository: the MangaDex provider (chapter directory
construction, chapter detail resolution with bounded retry, page download),
the CBZ archive packager, the file-name sanitizer and the
download-and-upload orchestrator with its progress tracker.

Network and channel effects are made explicit: every HTTP interaction is a
parameter (a function from the request to its outcome), and the progress
channel becomes an accumulated list of updates.  Durations are natural
numbers counting milliseconds.
-/

namespace BooxServe

/-! ### Go error values

Errors in the Go source are wrapped values; `errors.Is` walks the wrap
chain comparing against sentinel values.  The two sentinels
`manga.ErrChapterMetadataMissing` and `manga.ErrChapterNoPages` are the
nullary constructors; `wrap` models `fmt.Errorf("...: %w", err)` and
`join` models `errors.Join`. -/

inductive GoError where
  | errChapterMetadataMissing : GoError
  | errChapterNoPages : GoError
  | plain (msg : String) : GoError
  | wrap (msg : String) (inner : GoError) : GoError
  | join (errs : List GoError) : GoError
deriving Repr

-- `errors.Is(err, manga.ErrChapterMetadataMissing)`: the sentinel is a
-- distinct `errors.New` value, so interface equality holds exactly at the
-- sentinel itself; `wrap` and `join` nodes are traversed.
mutual
def errorsIsMetadataMissing : GoError → Bool
  | .errChapterMetadataMissing => true
  | .wrap _ inner => errorsIsMetadataMissing inner
  | .join errs => anyIsMetadataMissing errs
  | _ => false
def anyIsMetadataMissing : List GoError → Bool
  | [] => false
  | e :: es => errorsIsMetadataMissing e || anyIsMetadataMissing es
end

-- `errors.Is(err, manga.ErrChapterNoPages)`.
mutual
def errorsIsNoPages : GoError → Bool
  | .errChapterNoPages => true
  | .wrap _ inner => errorsIsNoPages inner
  | .join errs => anyIsNoPages errs
  | _ => false
def anyIsNoPages : List GoError → Bool
  | [] => false
  | e :: es => errorsIsNoPages e || anyIsNoPages es
end

/-- Function `shouldSkipChapter` from `internal/app/download.go`. -/
def shouldSkipChapter (e : GoError) : Bool :=
  errorsIsMetadataMissing e || errorsIsNoPages e

/-! ### Chapter detail resolution (`fetchChapterDetails`) -/

/-- The decoded `/at-home/server/{id}` JSON payload. -/
structure ChapterDetails where
  result : String
  baseURL : String
  hash : String
  data : List String
  dataSaver : List String
deriving Repr, DecidableEq

/-- What one HTTP attempt of the detail resolution can observe. -/
inductive AttemptOutcome where
  | netError (msg : String)
  | readError (msg : String)
  | statusError (code : Nat) (body : String)
  | parseError (msg : String)
  | parsed (details : ChapterDetails)
deriving Repr

/-- Function `shouldRetry` from the provider: 429 or any 5xx. -/
def shouldRetry (statusCode : Nat) : Bool :=
  statusCode == 429 || statusCode ≥ 500

/-- The error (if any) a single attempt of `fetchChapterDetails` produces,
mirroring the branch structure of the Go loop body. -/
def attemptResult (chapterID : String) (o : AttemptOutcome) :
    Except GoError ChapterDetails :=
  match o with
  | .netError m => .error (.wrap "error fetching chapter details" (.plain m))
  | .readError m =>
      .error (.wrap "error reading chapter details response" (.plain m))
  | .statusError _ body =>
      .error (.plain ("chapter details request failed: " ++ body))
  | .parseError m => .error (.wrap "error parsing chapter details" (.plain m))
  | .parsed d =>
      if d.result ≠ "ok" then
        .error (.plain ("chapter details request returned \x22" ++ d.result ++ "\x22"))
      else if d.baseURL = "" ∨ d.hash = "" then
        .error (.wrap ("chapter details missing baseUrl/hash for " ++ chapterID)
          .errChapterMetadataMissing)
      else
        .ok d

/-- Whether the failing branch taken by this attempt is allowed to retry
(`continue`) when attempts remain: every failure branch except a
non-retryable HTTP status retries unconditionally. -/
def attemptRetryable (o : AttemptOutcome) : Bool :=
  match o with
  | .statusError code _ => shouldRetry code
  | _ => true

/-- The backoff wait `waitWithBackoff` computes: `attempt² × 250ms`. -/
def backoffWait (attempt : Nat) : Nat := attempt * attempt * 250

/-- The retry loop of `fetchChapterDetails`.  `attempt` is the 1-based
attempt counter; `retriesLeft` counts how many further attempts the
`attempt < 3` guard still allows.  Returns the result together with the
number of attempts performed and the list of computed backoff waits, in
order. -/
def fetchAttempts (chapterID : String) (outcome : Nat → AttemptOutcome) :
    Nat → Nat → Except GoError ChapterDetails × Nat × List Nat
  | attempt, 0 =>
    match attemptResult chapterID (outcome attempt) with
    | .ok d => (.ok d, 1, [])
    | .error e => (.error e, 1, [])
  | attempt, r + 1 =>
    match attemptResult chapterID (outcome attempt) with
    | .ok d => (.ok d, 1, [])
    | .error e =>
      if attemptRetryable (outcome attempt) then
        let (res, n, ws) := fetchAttempts chapterID outcome (attempt + 1) r
        (res, n + 1, backoffWait attempt :: ws)
      else
        (.error e, 1, [])

/-- Function `fetchChapterDetails`: up to 3 attempts starting at attempt 1. -/
def fetchChapterDetails (chapterID : String) (outcome : Nat → AttemptOutcome) :
    Except GoError ChapterDetails × Nat × List Nat :=
  fetchAttempts chapterID outcome 1 2

/-! ### File-name sanitizing (`sanitizeFileName`) -/

/-- Predicate `unicode.IsSpace` for the code points Go treats as white space. -/
def goIsSpace (c : Char) : Bool :=
  c == ' ' || c == '\t' || c == '\n' || c == '\x0b' || c == '\x0c' ||
  c == '\r' || c == '\x85' || c == '\xa0' ||
  c == ' ' ||
  (0x2000 ≤ c.toNat && c.toNat ≤ 0x200a) ||
  c == ' ' || c == ' ' || c == ' ' || c == ' ' ||
  c == '　'

/-- Model of `strings.TrimSpace` on the character list. -/
def trimSpaceList (l : List Char) : List Char :=
  ((l.dropWhile goIsSpace).reverse.dropWhile goIsSpace).reverse

/-- Model of `strings.ReplaceAll` for a single-character pattern. -/
def replaceChar (from' to' : Char) (l : List Char) : List Char :=
  l.map fun c => if c == from' then to' else c

/-- Model of `strings.Trim(s, ". ")`: drop leading and trailing `'.'` and `' '`. -/
def trimDotSpace (l : List Char) : List Char :=
  let cut := fun c : Char => c == '.' || c == ' '
  ((l.dropWhile cut).reverse.dropWhile cut).reverse

/-- Model of `filepath.Clean` restricted to inputs that contain no path separator
(after the sanitizer's replacements no `'/'` or `'\'` remains): such an
input is a single path element, so cleaning only turns the empty path
into `"."` and leaves everything else unchanged. -/
def cleanSeparatorFree (l : List Char) : List Char :=
  if l.isEmpty then ['.'] else l

/-- Function `sanitizeFileName` from `internal/app/download.go`, on character
lists. -/
def sanitizeCore (l : List Char) : List Char :=
  let trimmed := trimSpaceList l
  if trimmed.isEmpty then "untitled".data
  else
    cleanSeparatorFree
      (trimDotSpace (replaceChar '\\' '-' (replaceChar '/' '-' trimmed)))

/-- Function `sanitizeFileName` on strings. -/
def sanitizeFileName (s : String) : String :=
  ⟨sanitizeCore s.data⟩

/-! ### Chapters and labels -/

/-- Structure `manga.Chapter`.  `float64` sort keys are modelled as rationals. -/
structure Chapter where
  id : String
  number : String
  title : String
  volume : String
  numericChapter : ℚ
deriving Repr, DecidableEq

/-- Function `manga.FormatChapterLabel`. -/
def FormatChapterLabel (c : Chapter) : String :=
  let label := if c.number ≠ "" then "Chapter " ++ c.number else "Chapter"
  let label := if c.title ≠ "" then label ++ " - " ++ c.title else label
  if c.volume ≠ "" then "Volume " ++ c.volume ++ ", " ++ label else label

/-! ### Archive packaging (`createCBZ`) -/

/-- Format `%03d` for natural numbers: zero-pad to at least three digits. -/
def pad3 (n : Nat) : String :=
  if n < 10 then "00" ++ toString n
  else if n < 100 then "0" ++ toString n
  else toString n

/-- The name of the archive entry for the 0-based page position `i`. -/
def entryName (chapterName : String) (i : Nat) : String :=
  chapterName ++ "_page_" ++ pad3 (i + 1) ++ ".jpg"

/-- The archive is modelled by its ordered entry list (name, payload).
Page payloads are byte lists. -/
abbrev Archive := List (String × List Nat)

/-- Function `createCBZ`: one entry per page image, in order.  Writing into the
in-memory buffer transfers every byte and the finished zip container is
never the empty byte string, so the source's two invariant checks cannot
fire; the `Except` shape of the Go signature is kept. -/
def createCBZ (chapterName : String) (images : List (List Nat)) :
    Except GoError Archive :=
  .ok ((images.enum).map fun p => (entryName chapterName p.1, p.2))

/-! ### Progress protocol -/

/-- Structure `app.ProgressUpdate`. -/
structure ProgressUpdate where
  current : Nat
  total : Nat
  message : String
  done : Bool
  err : Option GoError
deriving Repr

/-- Structure `progressTracker`, with the channel sends accumulated in `out` in
emission order. -/
structure Tracker where
  total : Nat
  current : Nat
  out : List ProgressUpdate
deriving Repr

def Tracker.emit (t : Tracker) (u : ProgressUpdate) : Tracker :=
  { t with out := t.out ++ [u] }

/-- Method `(*progressTracker).message`. -/
def Tracker.message (t : Tracker) (msg : String) : Tracker :=
  t.emit ⟨t.current, t.total, msg, false, none⟩

/-- Method `(*progressTracker).advance`. -/
def Tracker.advance (t : Tracker) (msg : String) : Tracker :=
  let c := if t.current < t.total then t.current + 1 else t.current
  { t with current := c, out := t.out ++ [⟨c, t.total, msg, false, none⟩] }

/-- Method `(*progressTracker).skip`. -/
def Tracker.skip (t : Tracker) (steps : Nat) (msg : String) : Tracker :=
  let c := if t.current + steps > t.total then t.total else t.current + steps
  { t with current := c, out := t.out ++ [⟨c, t.total, msg, false, none⟩] }

/-! ### Pipeline orchestrator (`DownloadAndUploadMangaChapters`) -/

/-- The outward calls the orchestrator makes, recorded as a trace. -/
inductive Effect where
  | createFolder (name : String)
  | download (chapterID : String)
  | upload (folderID fileName : String)
deriving Repr, DecidableEq

/-- The orchestrator's collaborators: the Boox client's folder creation
and upload calls and the provider's `DownloadChapterImages`. -/
structure Env where
  createFolder : String → Except GoError String
  downloadChapterImages : Chapter → Except GoError (List (List Nat))
  uploadFile : String → String → Archive → Except GoError Unit

/-- The outcome of the per-episode loop body plus the final tracker,
skip-error list and effect trace. -/
structure LoopOut where
  res : Option GoError
  tracker : Tracker
  errs : List GoError
  effects : List Effect

/-- The `"Chapter <i>/<n>: "` prefix of every per-episode progress
message. -/
def chapterPre (index numChapters : Nat) : String :=
  "Chapter " ++ toString (index + 1) ++ "/" ++ toString numChapters ++ ": "

/-- The per-chapter loop of `DownloadAndUploadMangaChapters`;
`index` is the 0-based loop index, `numChapters` the batch size used in
the message prefix. -/
def processChapters (env : Env) (folderID : String) (numChapters : Nat) :
    List Chapter → Nat → Tracker → List GoError → List Effect → LoopOut
  | [], _, t, errs, effs => ⟨none, t, errs, effs⟩
  | c :: rest, index, t, errs, effs =>
    let label := FormatChapterLabel c
    let pre := chapterPre index numChapters
    let t := t.message (pre ++ "Downloading pages for " ++ label)
    let effs := effs ++ [Effect.download c.id]
    match env.downloadChapterImages c with
    | .error e =>
      if shouldSkipChapter e then
        processChapters env folderID numChapters rest (index + 1)
          (t.skip 3 (pre ++ "Skipped " ++ label)) (errs ++ [e]) effs
      else
        ⟨some (.wrap "error downloading chapter images" e), t, errs, effs⟩
    | .ok images =>
      let t := t.advance (pre ++ "Downloaded pages for " ++ label)
      let t := t.message (pre ++ "Creating CBZ for " ++ label)
      let chapterName := sanitizeFileName label
      match createCBZ chapterName images with
      | .error e => ⟨some (.wrap "error creating CBZ file" e), t, errs, effs⟩
      | .ok cbzData =>
        let t := t.advance (pre ++ "Created CBZ for " ++ label)
        let t := t.message (pre ++ "Uploading " ++ label)
        let fileName := chapterName ++ ".cbz"
        let effs := effs ++ [Effect.upload folderID fileName]
        match env.uploadFile folderID fileName cbzData with
        | .error e => ⟨some (.wrap "error uploading CBZ file" e), t, errs, effs⟩
        | .ok _ =>
          processChapters env folderID numChapters rest (index + 1)
            (t.advance (pre ++ "Uploaded " ++ label)) errs effs

/-- The whole of one orchestrator run. -/
structure RunOut where
  res : Option GoError
  preUpdates : List ProgressUpdate
  tracker : Tracker
  errs : List GoError
  effects : List Effect

/-- The full ordered update stream the run sends on the channel. -/
def RunOut.updates (r : RunOut) : List ProgressUpdate :=
  r.preUpdates ++ r.tracker.out

/-- Constant `stepsPerChapter`. -/
def stepsPerChapter : Nat := 3

/-- Function `app.DownloadAndUploadMangaChapters`. -/
def DownloadAndUploadMangaChapters (env : Env) (mangaTitle : String)
    (chapters : List Chapter) : RunOut :=
  if chapters.isEmpty then
    ⟨some (.plain "no chapters selected"), [], ⟨0, 0, []⟩, [], []⟩
  else
    let folderName := sanitizeFileName mangaTitle
    let (folderID, preUpdates) :=
      match env.createFolder folderName with
      | .ok id => (id, ([] : List ProgressUpdate))
      | .error _ =>
        ("", [⟨0, 0, "Unable to create folder, uploading to root", false, none⟩])
    let t0 : Tracker := ⟨chapters.length * stepsPerChapter, 0, []⟩
    let lo := processChapters env folderID chapters.length chapters 0 t0 []
      [Effect.createFolder folderName]
    let finalRes :=
      match lo.res with
      | some e => some e
      | none =>
        if lo.errs.isEmpty then none
        else some (.wrap ("skipped " ++ toString lo.errs.length ++ " chapter(s)")
          (.join lo.errs))
    ⟨finalRes, preUpdates, lo.tracker, lo.errs, lo.effects⟩

/-- The update sequence of one run as driven by `startDownloadCmd`: the
run's updates followed by the single terminal `done = true` update carrying
the run's returned error, after which the channel is closed. -/
def startDownload (env : Env) (mangaTitle : String)
    (chapters : List Chapter) : List ProgressUpdate :=
  let r := DownloadAndUploadMangaChapters env mangaTitle chapters
  r.updates ++ [⟨0, 0, "", true, r.res⟩]

/-! ### Episode directory (`FetchChapters`) -/

/-- One decoded entry of the paged `/chapter` listing. -/
structure ChapterData where
  id : String
  volume : String
  chapter : String
  title : String
  pages : Nat
  externalURL : String
deriving Repr, DecidableEq

/-- Turning an accepted raw entry into a `manga.Chapter`:
`strconv.ParseFloat` is the parameter `parse`; on parse failure the
numeric sort key keeps Go's zero value. -/
def mkChapter (parse : String → Option ℚ) (e : ChapterData) : Chapter :=
  ⟨e.id, e.chapter, e.title, e.volume, (parse e.chapter).getD 0⟩

/-- The per-page entry scan: reject already-seen identifiers, external
URLs and zero page counts; accepted entries are appended and their
identifier recorded. -/
def processEntries (parse : String → Option ℚ) :
    List ChapterData → List String → List Chapter → List String × List Chapter
  | [], seen, acc => (seen, acc)
  | e :: es, seen, acc =>
    if e.id ∈ seen then processEntries parse es seen acc
    else if e.externalURL ≠ "" ∨ e.pages = 0 then processEntries parse es seen acc
    else processEntries parse es (seen ++ [e.id]) (acc ++ [mkChapter parse e])

/-- The page size of the listing loop. -/
def chapterPageLimit : Nat := 100

/-- The pagination loop: scan responses in order, stopping after the
first page shorter than the limit. -/
def scanPages (parse : String → Option ℚ) :
    List (List ChapterData) → List String → List Chapter → List Chapter
  | [], _, acc => acc
  | page :: rest, seen, acc =>
    let (seen', acc') := processEntries parse page seen acc
    if page.length < chapterPageLimit then acc'
    else scanPages parse rest seen' acc'

/-- The comparator of the final `sort.Slice`, as a boolean total
preorder: numeric key ascending, volume label ascending as tiebreak. -/
def chapterLE (a b : Chapter) : Bool :=
  decide (a.numericChapter < b.numericChapter) ||
  (decide (a.numericChapter = b.numericChapter) && decide (a.volume ≤ b.volume))

/-- Function `FetchChapters` on the success path, parameterised by the pages the
catalog returns for offsets 0, 100, 200, … -/
def FetchChapters (parse : String → Option ℚ)
    (pages : List (List ChapterData)) : List Chapter :=
  (scanPages parse pages [] []).mergeSort chapterLE

/-! ### Page download (`downloadChapterImages`) -/

/-- What one page-image GET can observe. -/
inductive FetchResult where
  | netError (msg : String)
  | readError (msg : String)
  | body (bytes : List Nat)
deriving Repr

/-- Endpoint `<baseUrl>/<data|data-saver>/<hash>/<filename>`. -/
def pageEndpoint (base seg hash file : String) : String :=
  base ++ "/" ++ seg ++ "/" ++ hash ++ "/" ++ file

/-- The sequential fetch loop over the chosen manifest. -/
def fetchPages (fetch : String → FetchResult) (base seg hash : String) :
    List String → Except GoError (List (List Nat))
  | [] => .ok []
  | f :: fs =>
    match fetch (pageEndpoint base seg hash f) with
    | .netError m => .error (.wrap ("error downloading " ++ f) (.plain m))
    | .readError m => .error (.wrap ("error reading " ++ f) (.plain m))
    | .body bytes =>
      if bytes.length = 0 then
        .error (.plain ("downloaded image " ++ f ++ " is empty"))
      else
        match fetchPages fetch base seg hash fs with
        | .error e => .error e
        | .ok rest => .ok (bytes :: rest)

/-- Function `downloadChapterImages`: manifest selection with data-saver fallback,
then the sequential page loop. -/
def downloadChapterImages (fetch : String → FetchResult)
    (chapter : ChapterDetails) : Except GoError (List (List Nat)) :=
  if chapter.baseURL = "" ∨ chapter.hash = "" then
    .error (.wrap "invalid chapter details for download" .errChapterMetadataMissing)
  else
    let (fileNames, seg) :=
      if chapter.data.isEmpty ∧ ¬ chapter.dataSaver.isEmpty then
        (chapter.dataSaver, "data-saver")
      else (chapter.data, "data")
    if fileNames.isEmpty then
      .error (.wrap ("no pages returned for chapter " ++ chapter.hash)
        .errChapterNoPages)
    else fetchPages fetch chapter.baseURL seg chapter.hash fileNames

/-! ### Backoff wait (`waitWithBackoff`) -/

/-- Function `waitWithBackoff`, as a function from the attempt number, the time
remaining before the context deadline (`none` when no deadline is set;
negative when the deadline already passed) and the time after which the
context is cancelled (`none` when it never is), to the time actually
slept, in milliseconds.  The `select` sleeps until the timer fires or the
cancellation arrives, whichever is first. -/
def waitWithBackoff (attempt : Nat) (remaining : Option Int)
    (cancelAfter : Option Nat) : Nat :=
  let wait := backoffWait attempt
  let sleep :=
    match cancelAfter with
    | some c => min wait c
    | none => wait
  match remaining with
  | some r => if r < (wait : Int) then 0 else sleep
  | none => sleep

/-- The folder identifier the orchestrator uploads into: the created
folder's id, or the root (empty) on folder-creation failure. -/
def runFolderID (env : Env) (mangaTitle : String) : String :=
  match env.createFolder (sanitizeFileName mangaTitle) with
  | .ok id => id
  | .error _ => ""

/-- How one episode fares in the per-episode loop. -/
inductive StepOutcome where
  | success
  | skipped (e : GoError)
  | fatal (e : GoError)

/-- The outcome of the loop body for one chapter against `env`. -/
def chapterOutcome (env : Env) (folderID : String) (c : Chapter) : StepOutcome :=
  match env.downloadChapterImages c with
  | .error e =>
    if shouldSkipChapter e then .skipped e
    else .fatal (.wrap "error downloading chapter images" e)
  | .ok images =>
    let chapterName := sanitizeFileName (FormatChapterLabel c)
    match createCBZ chapterName images with
    | .error e => .fatal (.wrap "error creating CBZ file" e)
    | .ok cbzData =>
      match env.uploadFile folderID (chapterName ++ ".cbz") cbzData with
      | .error e => .fatal (.wrap "error uploading CBZ file" e)
      | .ok _ => .success

def StepOutcome.isFatal : StepOutcome → Bool
  | .fatal _ => true
  | _ => false

def StepOutcome.skipErr : StepOutcome → Option GoError
  | .skipped e => some e
  | _ => none

/-- The skip-classified errors the loop collects over a chapter list. -/
def skippedErrs (env : Env) (folderID : String) (cs : List Chapter) :
    List GoError :=
  cs.filterMap fun c => (chapterOutcome env folderID c).skipErr

/-- The chapter identifiers the orchestrator attempted to download, in
order. -/
def downloadIds (effs : List Effect) : List String :=
  effs.filterMap fun e =>
    match e with
    | .download id => some id
    | _ => none

/-- The skip classification of a call's result: `none` on success,
otherwise whether the orchestrator's skip check recognizes the error. -/
def errSkipClass (r : Except GoError ChapterDetails) : Option Bool :=
  match r with
  | .error e => some (shouldSkipChapter e)
  | .ok _ => none

/-- A parsed response with result code `"ok"` that lacks the delivery
host or the content hash. -/
def metaMissingParsed : AttemptOutcome → Prop
  | .parsed d => d.result = "ok" ∧ (d.baseURL = "" ∨ d.hash = "")
  | _ => False

/-- A parsed response whose result code is not `"ok"`. -/
def nonOkParsed : AttemptOutcome → Prop
  | .parsed d => d.result ≠ "ok"
  | _ => False

/-- The ordering relation of the directory: numeric sort key ascending,
volume label ascending as tiebreak. -/
def chapterOrder (a b : Chapter) : Prop :=
  a.numericChapter < b.numericChapter ∨
    (a.numericChapter = b.numericChapter ∧ a.volume ≤ b.volume)

/-- What the directory scan guarantees about its accumulator. -/
def scanProvenance (parse : String → Option ℚ) (source : List ChapterData)
    (acc₀ : List Chapter) (c : Chapter) : Prop :=
  c ∈ acc₀ ∨ ∃ raw, raw ∈ source ∧ c = mkChapter parse raw ∧
    raw.externalURL = "" ∧ raw.pages ≠ 0

/-- The run invariant of the progress tracker: the emitted stream is
non-decreasing in `current`, every emitted update is a non-terminal one
bounded by the tracker's position, and the position never exceeds the
total. -/
def TrackerInv (t : Tracker) : Prop :=
  List.Chain' (fun a b => a.current ≤ b.current) t.out ∧
  (∀ u ∈ t.out, u.current ≤ t.current ∧ u.total = t.total ∧
    u.done = false ∧ u.err = none) ∧
  t.current ≤ t.total

/-- Environment fixture: folder creation succeeds, chapter "a" downloads
one one-byte page, every other chapter fails with a metadata-missing
classified error, uploads succeed. -/
def envSkipMix : Env :=
  ⟨fun _ => .ok "f1",
   fun c => if c.id = "a" then .ok [[1]]
     else .error (.wrap "m" .errChapterMetadataMissing),
   fun _ _ _ => .ok ()⟩

/-- Environment fixture: downloads succeed, every upload fails with an
HTTP 500. -/
def envUploadFail : Env :=
  ⟨fun _ => .ok "f1", fun _ => .ok [[1]], fun _ _ _ => .error (.plain "500")⟩

def chA : Chapter := ⟨"a", "1", "", "", 1⟩

def chB : Chapter := ⟨"b", "2", "", "", 2⟩

/-- Environment fixture: every collaborator call succeeds and each
chapter has one one-byte page. -/
def envOneOk : Env :=
  ⟨fun _ => .ok "f1", fun _ => .ok [[1]], fun _ _ _ => .ok ()⟩

/-! ## Theorems -/

theorem downloadIds_append (a b : List Effect) :
    downloadIds (a ++ b) = downloadIds a ++ downloadIds b :=
  List.filterMap_append a b _

/-- Claim C5: archive entry names are deterministic and equal
`<episode-name>_page_<3-digit zero-padded index>.jpg` with the index
starting at 1; the archive has exactly one entry per page, in page order;
in particular the page at 0-based position 4 (page index 5) of episode
"Chapter 3" is named `Chapter 3_page_005.jpg`. -/
theorem C5_archive_entry_names (name : String) (images : List (List Nat)) :
    ∃ a : Archive, createCBZ name images = .ok a ∧
      a.length = images.length ∧
      (∀ i : Nat, a.get? i =
        (images.get? i).map fun img =>
          (name ++ "_page_" ++ pad3 (i + 1) ++ ".jpg", img)) ∧
      entryName "Chapter 3" 4 = "Chapter 3_page_005.jpg" := by
  refine ⟨_, rfl, by simp [List.enum], fun i => ?_, by decide⟩
  · show ((images.enum).map fun p => (entryName name p.1, p.2)).get? i = _
    simp only [List.get?_eq_getElem?, List.getElem?_map, List.getElem?_enum,
      entryName]
    cases images[i]? <;> rfl

theorem mem_of_mem_trimDotSpace {c : Char} {l : List Char}
    (h : c ∈ trimDotSpace l) : c ∈ l := by
  unfold trimDotSpace at h
  have h1 := List.dropWhile_subset _ (List.mem_reverse.mp h)
  exact List.dropWhile_subset _ (List.mem_reverse.mp h1)

theorem not_mem_replaceChar {c f : Char} (t : Char) {l : List Char}
    (hct : c ≠ t) (hcf : c = f ∨ c ∉ l) : c ∉ replaceChar f t l := by
  intro hmem
  rcases List.mem_map.mp hmem with ⟨a, ha, hac⟩
  by_cases haf : a == f
  · simp [haf] at hac; exact hct hac.symm
  · simp [haf] at hac
    subst hac
    rcases hcf with h | h
    · subst h; simp at haf
    · exact h ha

theorem trimSpaceList_eq_nil {l : List Char}
    (h : ∀ c ∈ l, goIsSpace c) : trimSpaceList l = [] := by
  unfold trimSpaceList
  have h1 : l.dropWhile goIsSpace = [] := by
    rw [List.dropWhile_eq_nil_iff]
    intro x hx; exact h x hx
  simp [h1]

/-- Claim C10: the sanitizer returns a non-empty name with no `'/'` and
no `'\'`, and returns `"untitled"` exactly on all-whitespace (including
empty) input. -/
theorem C10_sanitizeFileName (s : String) :
    sanitizeFileName s ≠ "" ∧
    '/' ∉ (sanitizeFileName s).data ∧
    '\\' ∉ (sanitizeFileName s).data ∧
    (s.data.all goIsSpace = true → sanitizeFileName s = "untitled") := by
  have hcore : sanitizeCore s.data ≠ [] ∧ '/' ∉ sanitizeCore s.data ∧
      '\\' ∉ sanitizeCore s.data := by
    unfold sanitizeCore
    by_cases hempty : (trimSpaceList s.data).isEmpty
    · simp only [hempty, if_true]
      refine ⟨by decide, by decide, by decide⟩
    · simp only [hempty, if_false]
      set x := trimDotSpace
        (replaceChar '\\' '-' (replaceChar '/' '-' (trimSpaceList s.data))) with hx
      have hslash : '/' ∉ x := fun hmem =>
        not_mem_replaceChar '-' (by decide)
          (Or.inr (not_mem_replaceChar '-' (by decide) (Or.inl rfl)))
          (mem_of_mem_trimDotSpace hmem)
      have hback : '\\' ∉ x := fun hmem =>
        not_mem_replaceChar '-' (by decide) (Or.inl rfl)
          (mem_of_mem_trimDotSpace hmem)
      unfold cleanSeparatorFree
      by_cases hxe : x.isEmpty
      · simp only [hxe, if_true]
        refine ⟨by decide, by decide, by decide⟩
      · simp only [hxe, if_false]
        exact ⟨by simpa [List.isEmpty_iff] using hxe, hslash, hback⟩
  refine ⟨?_, hcore.2.1, hcore.2.2, ?_⟩
  · intro h
    exact hcore.1 (congrArg String.data h)
  · intro hall
    have hnil : trimSpaceList s.data = [] :=
      trimSpaceList_eq_nil (by simpa [List.all_eq_true] using hall)
    show String.mk (sanitizeCore s.data) = "untitled"
    unfold sanitizeCore
    simp [hnil]

/-- Witness for C10 at concrete inputs: a name with both separators is
cleaned of them, and a whitespace-only name becomes "untitled". -/
theorem C10_sanitizeFileName_witness :
    '/' ∉ (sanitizeFileName "a/b\\c").data ∧
    sanitizeFileName " \t " = "untitled" :=
  ⟨(C10_sanitizeFileName "a/b\\c").2.1,
   (C10_sanitizeFileName " \t ").2.2.2 (by decide)⟩

/-- Claim C8: the backoff wait never extends past the caller's deadline —
if the remaining time is below the computed wait no sleep happens at all,
the slept time never exceeds the remaining time, a cancellation arriving
after `c` milliseconds ends the wait by then, and the sleep never exceeds
the computed backoff. -/
theorem C8_backoff_never_past_deadline (attempt : Nat) (r : Int)
    (rem : Option Int) (cancel : Option Nat) (c : Nat) :
    (r < (backoffWait attempt : Int) →
      waitWithBackoff attempt (some r) cancel = 0) ∧
    ((waitWithBackoff attempt (some r) cancel : Int) ≤ max r 0) ∧
    (waitWithBackoff attempt rem (some c) ≤ c) ∧
    (waitWithBackoff attempt rem cancel ≤ backoffWait attempt) := by
  refine ⟨?_, ?_, ?_, ?_⟩
  · intro h
    unfold waitWithBackoff
    cases cancel <;> simp [h]
  · unfold waitWithBackoff
    by_cases h : r < (backoffWait attempt : Int)
    · cases cancel <;> simp [h]
    · cases cancel with
      | none => simp [h]; omega
      | some c' =>
        simp only [h, if_false]
        have : (min (backoffWait attempt) c' : Int) ≤ backoffWait attempt := by
          simp [Int.ofNat_le.mpr (Nat.min_le_left _ _)]
        omega
  · unfold waitWithBackoff
    cases rem with
    | none => simp [Nat.min_le_right]
    | some r' =>
      by_cases h : r' < (backoffWait attempt : Int) <;>
        simp [h, Nat.min_le_right]
  · unfold waitWithBackoff
    cases rem with
    | none => cases cancel <;> simp [Nat.min_le_left]
    | some r' =>
      by_cases h : r' < (backoffWait attempt : Int) <;>
        cases cancel <;> simp [h, Nat.min_le_left]

/-- Witness for C8: with a 2nd-attempt wait of 1000ms, 600ms remaining
skips the sleep; without a deadline a cancellation after 300ms ends the
wait within 300ms. -/
theorem C8_backoff_never_past_deadline_witness :
    waitWithBackoff 2 (some 600) none = 0 ∧
    waitWithBackoff 2 none (some 300) ≤ 300 :=
  ⟨(C8_backoff_never_past_deadline 2 600 none none 300).1 (by decide),
   (C8_backoff_never_past_deadline 2 600 none none 300).2.2.1⟩

set_option maxRecDepth 4000 in
theorem fetchAttempts_spec (cid : String) (outcome : Nat → AttemptOutcome) :
    ∀ (retries attempt : Nat) (res : Except GoError ChapterDetails)
      (n : Nat) (ws : List Nat),
      fetchAttempts cid outcome attempt retries = (res, n, ws) →
      1 ≤ n ∧ n ≤ retries + 1 ∧
      ws = (List.range (n - 1)).map (fun j => backoffWait (attempt + j)) ∧
      (∀ e, res = .error e →
        attemptResult cid (outcome (attempt + n - 1)) = .error e) := by
  intro retries
  induction retries with
  | zero =>
    intro attempt res n ws h
    unfold fetchAttempts at h
    cases hres : attemptResult cid (outcome attempt) with
    | ok d =>
      rw [hres] at h
      injection h with h1 h2
      injection h2 with h2 h3
      subst h1; subst h2; subst h3
      refine ⟨Nat.le_refl 1, by omega, by simp, fun e he => by cases he⟩
    | error e =>
      rw [hres] at h
      injection h with h1 h2
      injection h2 with h2 h3
      subst h1; subst h2; subst h3
      exact ⟨Nat.le_refl 1, by omega, by simp, fun e' he' => by
        cases he'; simpa using hres⟩
  | succ r ih =>
    intro attempt res n ws h
    unfold fetchAttempts at h
    cases hres : attemptResult cid (outcome attempt) with
    | ok d =>
      rw [hres] at h
      injection h with h1 h2
      injection h2 with h2 h3
      subst h1; subst h2; subst h3
      refine ⟨Nat.le_refl 1, by omega, by simp, fun e he => by cases he⟩
    | error e =>
      rw [hres] at h
      dsimp only at h
      by_cases hretry : attemptRetryable (outcome attempt)
      · rw [if_pos hretry] at h
        rcases hrec : fetchAttempts cid outcome (attempt + 1) r with ⟨res', n', ws'⟩
        rw [hrec] at h
        simp only at h
        injection h with h1 h2
        injection h2 with h2 h3
        subst h1; subst h2; subst h3
        obtain ⟨ih1, ih2, ih3, ih4⟩ := ih (attempt + 1) res' n' ws' hrec
        refine ⟨by omega, by omega, ?_, ?_⟩
        · have hr : n' + 1 - 1 = (n' - 1) + 1 := by omega
          rw [hr, List.range_succ_eq_map, List.map_cons, List.map_map, ih3]
          simp only [Nat.add_zero]
          congr 1
          apply List.map_congr_left
          intro j _
          simp only [Function.comp_apply]
          congr 1
          omega
        · intro e' he'
          have := ih4 e' he'
          have harith : attempt + (n' + 1) - 1 = attempt + 1 + n' - 1 := by omega
          rw [harith]
          exact this
      · rw [if_neg hretry] at h
        injection h with h1 h2
        injection h2 with h2 h3
        subst h1; subst h2; subst h3
        exact ⟨Nat.le_refl 1, by omega, by simp, fun e' he' => by
          cases he'; simpa using hres⟩

/-- Claim C3: detail resolution performs at most 3 attempts, the backoff
wait recorded before attempt `k` (the `(k-1)`-th wait, 0-indexed `j` with
`k = j + 2`) is `(k-1)² × 250` ms, and when the call fails the returned
error is the one produced by the last attempt performed. -/
theorem C3_detail_retry_budget (cid : String) (outcome : Nat → AttemptOutcome)
    (res : Except GoError ChapterDetails) (n : Nat) (ws : List Nat)
    (h : fetchChapterDetails cid outcome = (res, n, ws)) :
    n ≤ 3 ∧
    ws = (List.range (n - 1)).map (fun j => (j + 1) * (j + 1) * 250) ∧
    (∀ e, res = .error e → attemptResult cid (outcome n) = .error e) := by
  obtain ⟨h1, h2, h3, h4⟩ := fetchAttempts_spec cid outcome 2 1 res n ws h
  refine ⟨by omega, ?_, ?_⟩
  · rw [h3]
    apply List.map_congr_left
    intro j _
    simp [backoffWait, Nat.add_comm 1 j]
  · intro e he
    have := h4 e he
    simpa [Nat.add_comm 1 n, Nat.add_sub_cancel] using this

/-- Witness for C3: with every attempt answering HTTP 500, the call
performs 3 attempts, waits 250ms then 1000ms, and returns the status
error of the third attempt. -/
theorem C3_detail_retry_budget_witness :
    (fetchChapterDetails "c" (fun _ => .statusError 500 "boom")).2.1 ≤ 3 ∧
    attemptResult "c" (.statusError 500 "boom") =
      .error (.plain "chapter details request failed: boom") := by
  have h := C3_detail_retry_budget "c" (fun _ => .statusError 500 "boom")
    (.error (.plain "chapter details request failed: boom")) 3 [250, 1000] rfl
  exact ⟨h.1, h.2.2 _ rfl⟩

theorem attemptResult_of_metaMissingParsed (cid : String) {o : AttemptOutcome}
    (h : metaMissingParsed o) :
    ∃ m, attemptResult cid o = .error (.wrap m .errChapterMetadataMissing) ∧
      attemptRetryable o = true := by
  cases o with
  | parsed d =>
    obtain ⟨hok, hmiss⟩ := h
    refine ⟨"chapter details missing baseUrl/hash for " ++ cid, ?_, rfl⟩
    simp [attemptResult, hok, hmiss]
  | netError m => exact absurd h (by simp [metaMissingParsed])
  | readError m => exact absurd h (by simp [metaMissingParsed])
  | statusError c b => exact absurd h (by simp [metaMissingParsed])
  | parseError m => exact absurd h (by simp [metaMissingParsed])

theorem attemptResult_of_nonOkParsed (cid : String) {o : AttemptOutcome}
    (h : nonOkParsed o) :
    ∃ m, attemptResult cid o = .error (.plain m) ∧
      attemptRetryable o = true := by
  cases o with
  | parsed d =>
    have h' : d.result ≠ "ok" := h
    refine ⟨"chapter details request returned \x22" ++ d.result ++ "\x22", ?_, rfl⟩
    simp [attemptResult, h']
  | netError m => exact absurd h (by simp [nonOkParsed])
  | readError m => exact absurd h (by simp [nonOkParsed])
  | statusError c b => exact absurd h (by simp [nonOkParsed])
  | parseError m => exact absurd h (by simp [nonOkParsed])

/-- Counterexample to claim C1 as stated: when every attempt parses a
response whose result code is `"bad"` (not `"ok"`), the 3-attempt budget
is exhausted but the surfaced error is NOT one the orchestrator's skip
check recognizes — a non-`"ok"` result code is a plain error, not a
metadata-missing classified one. -/
theorem C1_counterexample :
    errSkipClass
      (fetchChapterDetails "c"
        (fun _ => .parsed ⟨"bad", "host", "h1", [], []⟩)).1 = some false ∧
    (fetchChapterDetails "c"
      (fun _ => .parsed ⟨"bad", "host", "h1", [], []⟩)).2.1 = 3 :=
  ⟨rfl, rfl⟩

/-- Claim C1 as amended: after the 3-attempt budget, a successfully
parsed response with result code `"ok"` that lacks the delivery host or
the content hash surfaces as a metadata-missing classified error that the
skip check recognizes, while a successfully parsed response with a
non-`"ok"` result code surfaces as an unclassified error the skip check
does not recognize. -/
theorem C1_metadata_missing_classification (cid : String)
    (outcome : Nat → AttemptOutcome) :
    ((∀ k, 1 ≤ k → k ≤ 3 → metaMissingParsed (outcome k)) →
      ∃ m, fetchChapterDetails cid outcome =
          (.error (.wrap m .errChapterMetadataMissing), 3, [250, 1000]) ∧
        shouldSkipChapter (.wrap m .errChapterMetadataMissing) = true) ∧
    ((∀ k, 1 ≤ k → k ≤ 3 → nonOkParsed (outcome k)) →
      ∃ m, fetchChapterDetails cid outcome =
          (.error (.plain m), 3, [250, 1000]) ∧
        shouldSkipChapter (.plain m) = false) := by
  constructor
  · intro h
    obtain ⟨m1, he1, hr1⟩ := attemptResult_of_metaMissingParsed cid
      (h 1 (by omega) (by omega))
    obtain ⟨m2, he2, hr2⟩ := attemptResult_of_metaMissingParsed cid
      (h 2 (by omega) (by omega))
    obtain ⟨m3, he3, hr3⟩ := attemptResult_of_metaMissingParsed cid
      (h 3 (by omega) (by omega))
    refine ⟨m3, ?_, by simp [shouldSkipChapter, errorsIsMetadataMissing]⟩
    unfold fetchChapterDetails
    unfold fetchAttempts
    rw [he1, hr1]
    simp only [if_true]
    unfold fetchAttempts
    rw [he2, hr2]
    simp only [if_true]
    unfold fetchAttempts
    rw [he3]
    rfl
  · intro h
    obtain ⟨m1, he1, hr1⟩ := attemptResult_of_nonOkParsed cid
      (h 1 (by omega) (by omega))
    obtain ⟨m2, he2, hr2⟩ := attemptResult_of_nonOkParsed cid
      (h 2 (by omega) (by omega))
    obtain ⟨m3, he3, hr3⟩ := attemptResult_of_nonOkParsed cid
      (h 3 (by omega) (by omega))
    refine ⟨m3, ?_, rfl⟩
    unfold fetchChapterDetails
    unfold fetchAttempts
    rw [he1, hr1]
    simp only [if_true]
    unfold fetchAttempts
    rw [he2, hr2]
    simp only [if_true]
    unfold fetchAttempts
    rw [he3]
    rfl

/-- Witness for the amended C1 at concrete responses: an "ok" response
with empty host and hash yields a skip-classified error after 3 attempts,
and a "bad"-result response yields an unclassified error after 3
attempts. -/
theorem C1_metadata_missing_classification_witness :
    (∃ m, fetchChapterDetails "a"
        (fun _ => .parsed ⟨"ok", "", "", ["p1.jpg"], []⟩) =
        (.error (.wrap m .errChapterMetadataMissing), 3, [250, 1000]) ∧
      shouldSkipChapter (.wrap m .errChapterMetadataMissing) = true) ∧
    (∃ m, fetchChapterDetails "b"
        (fun _ => .parsed ⟨"error", "host", "h1", [], []⟩) =
        (.error (.plain m), 3, [250, 1000]) ∧
      shouldSkipChapter (.plain m) = false) :=
  ⟨(C1_metadata_missing_classification "a"
      (fun _ => .parsed ⟨"ok", "", "", ["p1.jpg"], []⟩)).1
      (fun k _ _ => by constructor <;> simp),
   (C1_metadata_missing_classification "b"
      (fun _ => .parsed ⟨"error", "host", "h1", [], []⟩)).2
      (fun k _ _ => by simp [nonOkParsed])⟩

theorem fetchPages_error_not_skip (fetch : String → FetchResult)
    (base seg hash : String) :
    ∀ (files : List String) (e : GoError),
      fetchPages fetch base seg hash files = .error e →
      shouldSkipChapter e = false := by
  intro files
  induction files with
  | nil => intro e he; cases he
  | cons f fs ih =>
    intro e he
    unfold fetchPages at he
    cases hf : fetch (pageEndpoint base seg hash f) with
    | netError m =>
      rw [hf] at he
      injection he with he
      subst he
      rfl
    | readError m =>
      rw [hf] at he
      injection he with he
      subst he
      rfl
    | body bytes =>
      rw [hf] at he
      dsimp only at he
      by_cases hlen : bytes.length = 0
      · rw [if_pos hlen] at he
        injection he with he
        subst he
        rfl
      · rw [if_neg hlen] at he
        cases hrest : fetchPages fetch base seg hash fs with
        | error e' =>
          rw [hrest] at he
          injection he with he
          subst he
          exact ih e' hrest
        | ok rest => rw [hrest] at he; cases he

theorem fetchPages_ok_forall₂ (fetch : String → FetchResult)
    (base seg hash : String) :
    ∀ (files : List String) (imgs : List (List Nat)),
      fetchPages fetch base seg hash files = .ok imgs →
      List.Forall₂ (fun f img =>
        fetch (pageEndpoint base seg hash f) = .body img ∧ img ≠ [])
        files imgs := by
  intro files
  induction files with
  | nil =>
    intro imgs h
    unfold fetchPages at h
    injection h with h
    subst h
    exact List.Forall₂.nil
  | cons f fs ih =>
    intro imgs h
    unfold fetchPages at h
    cases hf : fetch (pageEndpoint base seg hash f) with
    | netError m => rw [hf] at h; cases h
    | readError m => rw [hf] at h; cases h
    | body bytes =>
      rw [hf] at h
      dsimp only at h
      by_cases hlen : bytes.length = 0
      · rw [if_pos hlen] at h; cases h
      · rw [if_neg hlen] at h
        cases hrest : fetchPages fetch base seg hash fs with
        | error e' => rw [hrest] at h; cases h
        | ok rest =>
          rw [hrest] at h
          injection h with h
          subst h
          exact List.Forall₂.cons
            ⟨hf, fun hnil => hlen (by simp [hnil])⟩ (ih rest hrest)

/-- Claim C7: the downloader uses the primary manifest, falls back to the
data-saver manifest only when the primary is empty, fails with the
no-pages classified (skip) error when both are empty, returns exactly one
non-empty image per manifest filename in manifest order on success, and
surfaces every fetch failure or empty payload as a non-skip error. -/
theorem C7_page_downloader (fetch : String → FetchResult)
    (d : ChapterDetails) (hb : d.baseURL ≠ "") (hh : d.hash ≠ "") :
    (d.data ≠ [] →
      downloadChapterImages fetch d =
        fetchPages fetch d.baseURL "data" d.hash d.data) ∧
    (d.data = [] → d.dataSaver ≠ [] →
      downloadChapterImages fetch d =
        fetchPages fetch d.baseURL "data-saver" d.hash d.dataSaver) ∧
    (d.data = [] → d.dataSaver = [] →
      ∃ e, downloadChapterImages fetch d = .error e ∧
        errorsIsNoPages e = true ∧ shouldSkipChapter e = true) ∧
    (∀ (files : List String) (imgs : List (List Nat)),
      fetchPages fetch d.baseURL "data" d.hash files = .ok imgs →
      List.Forall₂ (fun f img =>
        fetch (pageEndpoint d.baseURL "data" d.hash f) = .body img ∧ img ≠ [])
        files imgs) ∧
    (∀ e, downloadChapterImages fetch d = .error e →
      errorsIsNoPages e = false → shouldSkipChapter e = false) := by
  have hmeta : ¬ (d.baseURL = "" ∨ d.hash = "") := by
    intro h; rcases h with h | h
    · exact hb h
    · exact hh h
  refine ⟨?_, ?_, ?_, fetchPages_ok_forall₂ fetch d.baseURL "data" d.hash, ?_⟩
  · intro hdata
    unfold downloadChapterImages
    rw [if_neg hmeta]
    have hcond : ¬ (d.data.isEmpty ∧ ¬ d.dataSaver.isEmpty) := by
      intro hc
      exact hdata (List.isEmpty_iff.mp hc.1)
    rw [if_neg hcond]
    dsimp only
    rw [if_neg (by simpa [List.isEmpty_iff] using hdata)]
  · intro hdata hsaver
    unfold downloadChapterImages
    rw [if_neg hmeta]
    have hcond : d.data.isEmpty ∧ ¬ d.dataSaver.isEmpty := by
      constructor
      · simp [hdata]
      · simpa [List.isEmpty_iff] using hsaver
    rw [if_pos hcond]
    dsimp only
    rw [if_neg (by simpa [List.isEmpty_iff] using hsaver)]
  · intro hdata hsaver
    unfold downloadChapterImages
    rw [if_neg hmeta]
    have hcond : ¬ (d.data.isEmpty ∧ ¬ d.dataSaver.isEmpty) := by
      simp [hsaver]
    rw [if_neg hcond]
    dsimp only
    rw [if_pos (by simp [hdata])]
    exact ⟨_, rfl, rfl, by rfl⟩
  · intro e he hnp
    unfold downloadChapterImages at he
    rw [if_neg hmeta] at he
    by_cases hcond : d.data.isEmpty ∧ ¬ d.dataSaver.isEmpty
    · rw [if_pos hcond] at he
      dsimp only at he
      by_cases hne : d.dataSaver.isEmpty
      · exact absurd hne hcond.2
      · rw [if_neg hne] at he
        exact fetchPages_error_not_skip fetch d.baseURL "data-saver" d.hash
          d.dataSaver e he
    · rw [if_neg hcond] at he
      dsimp only at he
      by_cases hne : d.data.isEmpty
      · rw [if_pos hne] at he
        injection he with he
        subst he
        cases hnp
      · rw [if_neg hne] at he
        exact fetchPages_error_not_skip fetch d.baseURL "data" d.hash d.data e he

/-- Witness for C7 at a concrete detail: a one-page primary manifest is
fetched from the "data" tier and yields exactly that page's bytes. -/
theorem C7_page_downloader_witness :
    (downloadChapterImages (fun _ => .body [7])
        ⟨"ok", "host", "h1", ["a.jpg"], []⟩ =
      fetchPages (fun _ => .body [7]) "host" "data" "h1" ["a.jpg"]) ∧
    List.Forall₂ (fun f img =>
        (fun _ => FetchResult.body [7]) (pageEndpoint "host" "data" "h1" f) =
          .body img ∧ img ≠ [])
      ["a.jpg"] [[7]] :=
  ⟨((C7_page_downloader (fun _ => .body [7]) ⟨"ok", "host", "h1", ["a.jpg"], []⟩
      (by decide) (by decide)).1 (by decide)),
   ((C7_page_downloader (fun _ => .body [7]) ⟨"ok", "host", "h1", ["a.jpg"], []⟩
      (by decide) (by decide)).2.2.2.1 ["a.jpg"] [[7]] rfl)⟩

theorem chapterLE_iff (a b : Chapter) : chapterLE a b = true ↔ chapterOrder a b := by
  simp [chapterLE, chapterOrder]

theorem chapterLE_trans (a b c : Chapter) :
    chapterLE a b → chapterLE b c → chapterLE a c := by
  intro h1 h2
  rw [chapterLE_iff] at *
  rcases h1 with h1 | ⟨h1e, h1v⟩
  · rcases h2 with h2 | ⟨h2e, h2v⟩
    · exact Or.inl (lt_trans h1 h2)
    · exact Or.inl (h2e ▸ h1)
  · rcases h2 with h2 | ⟨h2e, h2v⟩
    · exact Or.inl (h1e ▸ h2)
    · exact Or.inr ⟨h1e.trans h2e, le_trans h1v h2v⟩

theorem chapterLE_total (a b : Chapter) : chapterLE a b || chapterLE b a := by
  rcases lt_trichotomy a.numericChapter b.numericChapter with h | h | h
  · simp [chapterLE_iff, chapterOrder, h]
  · rcases le_total a.volume b.volume with hv | hv
    · simp [chapterLE_iff, chapterOrder, h, hv]
    · simp [chapterLE_iff, chapterOrder, h.symm, hv]
  · simp [chapterLE_iff, chapterOrder, h]

theorem processEntries_spec (parse : String → Option ℚ) :
    ∀ (es : List ChapterData) (seen : List String) (acc : List Chapter),
      (seen ⊆ (processEntries parse es seen acc).1) ∧
      ((acc.map (·.id)).Nodup → (∀ c ∈ acc, c.id ∈ seen) →
        ((((processEntries parse es seen acc).2.map (·.id)).Nodup) ∧
          ∀ c ∈ (processEntries parse es seen acc).2,
            c.id ∈ (processEntries parse es seen acc).1)) ∧
      (∀ c ∈ (processEntries parse es seen acc).2,
        scanProvenance parse es acc c) := by
  intro es
  induction es with
  | nil =>
    intro seen acc
    refine ⟨fun x hx => hx, fun h1 h2 => ⟨h1, h2⟩, fun c hc => Or.inl hc⟩
  | cons e es ih =>
    intro seen acc
    by_cases hseen : e.id ∈ seen
    · have heq : processEntries parse (e :: es) seen acc =
          processEntries parse es seen acc := by
        conv_lhs => rw [processEntries]
        rw [if_pos hseen]
      rw [heq]
      obtain ⟨ih1, ih2, ih3⟩ := ih seen acc
      refine ⟨ih1, ih2, fun c hc => ?_⟩
      rcases ih3 c hc with h | ⟨raw, hraw, hrest⟩
      · exact Or.inl h
      · exact Or.inr ⟨raw, List.mem_cons_of_mem e hraw, hrest⟩
    · by_cases hfilter : e.externalURL ≠ "" ∨ e.pages = 0
      · have heq : processEntries parse (e :: es) seen acc =
            processEntries parse es seen acc := by
          conv_lhs => rw [processEntries]
          rw [if_neg hseen, if_pos hfilter]
        rw [heq]
        obtain ⟨ih1, ih2, ih3⟩ := ih seen acc
        refine ⟨ih1, ih2, fun c hc => ?_⟩
        rcases ih3 c hc with h | ⟨raw, hraw, hrest⟩
        · exact Or.inl h
        · exact Or.inr ⟨raw, List.mem_cons_of_mem e hraw, hrest⟩
      · have heq : processEntries parse (e :: es) seen acc =
            processEntries parse es (seen ++ [e.id])
              (acc ++ [mkChapter parse e]) := by
          conv_lhs => rw [processEntries]
          rw [if_neg hseen, if_neg hfilter]
        rw [heq]
        obtain ⟨ih1, ih2, ih3⟩ := ih (seen ++ [e.id]) (acc ++ [mkChapter parse e])
        push_neg at hfilter
        refine ⟨fun x hx => ih1 (List.mem_append_left _ hx), ?_, ?_⟩
        · intro hnodup hin
          apply ih2
          · rw [List.map_append, List.nodup_append]
            refine ⟨hnodup, by simp, ?_⟩
            intro x hx hy
            simp only [List.map_cons, List.map_nil, List.mem_singleton,
              mkChapter] at hy
            subst hy
            rcases List.mem_map.mp hx with ⟨c, hc, hcid⟩
            exact hseen (hcid ▸ hin c hc)
          · intro c hc
            rcases List.mem_append.mp hc with h | h
            · exact List.mem_append_left _ (hin c h)
            · simp only [List.mem_singleton] at h
              subst h
              exact List.mem_append_right _ (by simp [mkChapter])
        · intro c hc
          rcases ih3 c hc with h | ⟨raw, hraw, hrest⟩
          · rcases List.mem_append.mp h with h | h
            · exact Or.inl h
            · simp only [List.mem_singleton] at h
              subst h
              exact Or.inr ⟨e, List.mem_cons_self e es,
                rfl, hfilter.1, hfilter.2⟩
          · exact Or.inr ⟨raw, List.mem_cons_of_mem e hraw, hrest⟩

theorem scanPages_spec (parse : String → Option ℚ) :
    ∀ (pages : List (List ChapterData)) (seen : List String) (acc : List Chapter),
      ((acc.map (·.id)).Nodup → (∀ c ∈ acc, c.id ∈ seen) →
        ((scanPages parse pages seen acc).map (·.id)).Nodup) ∧
      (∀ c ∈ scanPages parse pages seen acc,
        scanProvenance parse pages.flatten acc c) := by
  intro pages
  induction pages with
  | nil =>
    intro seen acc
    exact ⟨fun h1 _ => h1, fun c hc => Or.inl hc⟩
  | cons page rest ih =>
    intro seen acc
    obtain ⟨pe1, pe2, pe3⟩ := processEntries_spec parse page seen acc
    rcases hpe : processEntries parse page seen acc with ⟨seen', acc'⟩
    rw [hpe] at pe1 pe2 pe3
    simp only at pe1 pe2 pe3
    have hunfold : scanPages parse (page :: rest) seen acc =
        if page.length < chapterPageLimit then acc'
        else scanPages parse rest seen' acc' := by
      conv_lhs => rw [scanPages]
      rw [hpe]
    by_cases hlen : page.length < chapterPageLimit
    · rw [hunfold, if_pos hlen]
      constructor
      · intro h1 h2
        exact (pe2 h1 h2).1
      · intro c hc
        rcases pe3 c hc with h | ⟨raw, hraw, hrest⟩
        · exact Or.inl h
        · refine Or.inr ⟨raw, ?_, hrest⟩
          simp only [List.flatten_cons, List.mem_append]
          exact Or.inl hraw
    · rw [hunfold, if_neg hlen]
      obtain ⟨ih1, ih2⟩ := ih seen' acc'
      constructor
      · intro h1 h2
        obtain ⟨hn, hi⟩ := pe2 h1 h2
        exact ih1 hn hi
      · intro c hc
        rcases ih2 c hc with h | ⟨raw, hraw, hrest⟩
        · rcases pe3 c h with h' | ⟨raw, hraw, hrest⟩
          · exact Or.inl h'
          · refine Or.inr ⟨raw, ?_, hrest⟩
            simp only [List.flatten_cons, List.mem_append]
            exact Or.inl hraw
        · refine Or.inr ⟨raw, ?_, hrest⟩
          simp only [List.flatten_cons, List.mem_append]
          exact Or.inr hraw

/-- Claim C6: the constructed directory has pairwise-distinct episode
identifiers, every entry stems from a raw record that is natively hosted
with a positive page count, the sequence is sorted by (numeric key
ascending, volume label ascending as tiebreak), and the numeric key is
always `parse` of the display number with the same default (Go's zero
value) on parse failure. -/
theorem C6_directory_invariants (parse : String → Option ℚ)
    (pages : List (List ChapterData)) :
    ((FetchChapters parse pages).map (·.id)).Nodup ∧
    (∀ c ∈ FetchChapters parse pages,
      ∃ raw, raw ∈ pages.flatten ∧ c = mkChapter parse raw ∧
        raw.externalURL = "" ∧ raw.pages ≠ 0) ∧
    List.Pairwise chapterOrder (FetchChapters parse pages) ∧
    (∀ c ∈ FetchChapters parse pages,
      c.numericChapter = (parse c.number).getD 0) := by
  have hperm := List.mergeSort_perm (scanPages parse pages [] []) chapterLE
  obtain ⟨hnodup, hprov⟩ := scanPages_spec parse pages [] []
  have hmem : ∀ c, c ∈ FetchChapters parse pages →
      ∃ raw, raw ∈ pages.flatten ∧ c = mkChapter parse raw ∧
        raw.externalURL = "" ∧ raw.pages ≠ 0 := by
    intro c hc
    have hc' : c ∈ scanPages parse pages [] [] := hperm.mem_iff.mp hc
    rcases hprov c hc' with h | ⟨raw, hraw, hrest⟩
    · cases h
    · exact ⟨raw, hraw, hrest⟩
  refine ⟨?_, hmem, ?_, ?_⟩
  · exact ((hperm.map (·.id)).nodup_iff).mpr (hnodup (by simp) (by simp))
  · exact ((List.sorted_mergeSort chapterLE_trans chapterLE_total
      (scanPages parse pages [] [])).imp (fun h => (chapterLE_iff _ _).mp h))
  · intro c hc
    obtain ⟨raw, _, hcr, _, _⟩ := hmem c hc
    subst hcr
    rfl

/-- Witness for C6 at a concrete catalog: a single page with one native
entry whose display number parses. -/
theorem C6_directory_invariants_witness :
    ((FetchChapters (fun s => if s = "3" then some 3 else none)
        [[⟨"id1", "1", "3", "t", 5, ""⟩]]).map (·.id)).Nodup ∧
    (⟨"id1", "3", "t", "1", (3 : ℚ)⟩ : Chapter).numericChapter =
      ((fun s => if s = "3" then some (3 : ℚ) else none)
        (⟨"id1", "3", "t", "1", (3 : ℚ)⟩ : Chapter).number).getD 0 :=
  ⟨(C6_directory_invariants (fun s => if s = "3" then some 3 else none)
      [[⟨"id1", "1", "3", "t", 5, ""⟩]]).1,
   (C6_directory_invariants (fun s => if s = "3" then some 3 else none)
      [[⟨"id1", "1", "3", "t", 5, ""⟩]]).2.2.2
      ⟨"id1", "3", "t", "1", (3 : ℚ)⟩
      (by simp only [FetchChapters, List.mem_mergeSort]; decide)⟩

/-- Claim C9: the empty batch returns the "no chapters selected" error
with no folder-creation, download or upload effect and no progress
update. -/
theorem C9_empty_batch (env : Env) (mangaTitle : String) :
    (DownloadAndUploadMangaChapters env mangaTitle []).res =
      some (.plain "no chapters selected") ∧
    (DownloadAndUploadMangaChapters env mangaTitle []).updates = [] ∧
    (DownloadAndUploadMangaChapters env mangaTitle []).effects = [] :=
  ⟨rfl, rfl, rfl⟩

theorem skippedErrs_cons (env : Env) (folderID : String) (c : Chapter)
    (rest : List Chapter) :
    skippedErrs env folderID (c :: rest) =
      (chapterOutcome env folderID c).skipErr.toList ++
        skippedErrs env folderID rest := by
  cases h : (chapterOutcome env folderID c).skipErr <;>
    simp [skippedErrs, List.filterMap_cons, h]

theorem trackerInv_emit (t : Tracker) (c' : Nat) (m : String)
    (h : TrackerInv t) (hc : t.current ≤ c') (hct : c' ≤ t.total) :
    TrackerInv ⟨t.total, c', t.out ++ [⟨c', t.total, m, false, none⟩]⟩ := by
  obtain ⟨h1, h2, h3⟩ := h
  refine ⟨?_, ?_, hct⟩
  · refine List.chain'_append.mpr ⟨h1, List.chain'_singleton _, ?_⟩
    intro x hx y hy
    simp only [List.head?_cons, Option.mem_def, Option.some.injEq] at hy
    subst hy
    have hxmem : x ∈ t.out := by
      rcases List.mem_getLast?_eq_getLast hx with ⟨hne, hxe⟩
      rw [hxe]
      exact List.getLast_mem hne
    exact le_trans (h2 x hxmem).1 hc
  · intro u hu
    rcases List.mem_append.mp hu with h' | h'
    · obtain ⟨ha, hb, hc'', hd⟩ := h2 u h'
      exact ⟨le_trans ha hc, hb, hc'', hd⟩
    · simp only [List.mem_singleton] at h'
      subst h'
      exact ⟨le_refl _, rfl, rfl, rfl⟩

theorem trackerInv_message (t : Tracker) (m : String) (h : TrackerInv t) :
    TrackerInv (t.message m) :=
  trackerInv_emit t t.current m h (le_refl _) h.2.2

theorem trackerInv_advance (t : Tracker) (m : String) (h : TrackerInv t) :
    TrackerInv (t.advance m) := by
  have hadv : t.advance m =
      ⟨t.total, if t.current < t.total then t.current + 1 else t.current,
        t.out ++ [⟨if t.current < t.total then t.current + 1 else t.current,
          t.total, m, false, none⟩]⟩ := rfl
  rw [hadv]
  by_cases hlt : t.current < t.total
  · rw [if_pos hlt]
    exact trackerInv_emit t (t.current + 1) m h (Nat.le_succ _) hlt
  · rw [if_neg hlt]
    exact trackerInv_emit t t.current m h (le_refl _) h.2.2

theorem trackerInv_skip (t : Tracker) (steps : Nat) (m : String)
    (h : TrackerInv t) : TrackerInv (t.skip steps m) := by
  have hskp : t.skip steps m =
      ⟨t.total, if t.current + steps > t.total then t.total
          else t.current + steps,
        t.out ++ [⟨if t.current + steps > t.total then t.total
          else t.current + steps, t.total, m, false, none⟩]⟩ := rfl
  rw [hskp]
  by_cases hgt : t.current + steps > t.total
  · rw [if_pos hgt]
    exact trackerInv_emit t t.total m h h.2.2 (le_refl _)
  · rw [if_neg hgt]
    exact trackerInv_emit t (t.current + steps) m h (Nat.le_add_right _ _)
      (by omega)

theorem processChapters_step_nonfatal (env : Env) (folderID : String)
    (n : Nat) (c : Chapter) (rest : List Chapter) (index : Nat) (t : Tracker)
    (errs : List GoError) (effs : List Effect)
    (h : (chapterOutcome env folderID c).isFatal = false) :
    ∃ (t' : Tracker) (effs' : List Effect),
      processChapters env folderID n (c :: rest) index t errs effs =
        processChapters env folderID n rest (index + 1) t'
          (errs ++ (chapterOutcome env folderID c).skipErr.toList) effs' ∧
      downloadIds effs' = downloadIds effs ++ [c.id] ∧
      t'.total = t.total ∧
      (t.total = n * 3 → t.current = index * 3 → index < n →
        t'.current = (index + 1) * 3) ∧
      (TrackerInv t → TrackerInv t') := by
  cases hdl : env.downloadChapterImages c with
  | error e0 =>
    cases hskip : shouldSkipChapter e0 with
    | true =>
      have houtcome : chapterOutcome env folderID c = .skipped e0 := by
        unfold chapterOutcome
        rw [hdl]
        dsimp only
        rw [if_pos hskip]
      have heq : processChapters env folderID n (c :: rest) index t errs effs =
          processChapters env folderID n rest (index + 1)
            ((t.message (chapterPre index n ++ "Downloading pages for " ++
              FormatChapterLabel c)).skip 3
              (chapterPre index n ++ "Skipped " ++ FormatChapterLabel c))
            (errs ++ [e0]) (effs ++ [Effect.download c.id]) := by
        conv_lhs => rw [processChapters]
        dsimp only
        rw [hdl]
        dsimp only
        rw [if_pos hskip]
      refine ⟨(t.message (chapterPre index n ++ "Downloading pages for " ++
          FormatChapterLabel c)).skip 3
          (chapterPre index n ++ "Skipped " ++ FormatChapterLabel c),
        effs ++ [Effect.download c.id], ?_, ?_, rfl, ?_, ?_⟩
      · rw [heq, houtcome]
        rfl
      · rw [downloadIds_append]
        rfl
      · intro htot hcur hlt
        show (if t.current + 3 > t.total then t.total else t.current + 3) =
          (index + 1) * 3
        rw [hcur, htot]
        have hc : ¬ (index * 3 + 3 > n * 3) := by omega
        rw [if_neg hc]
        omega
      · intro hinv
        exact trackerInv_skip _ 3 _ (trackerInv_message t _ hinv)
    | false =>
      exfalso
      have houtcome : chapterOutcome env folderID c =
          .fatal (.wrap "error downloading chapter images" e0) := by
        unfold chapterOutcome
        rw [hdl]
        dsimp only
        rw [if_neg (by simp [hskip])]
      rw [houtcome] at h
      simp [StepOutcome.isFatal] at h
  | ok images =>
    cases hup : env.uploadFile folderID
        (sanitizeFileName (FormatChapterLabel c) ++ ".cbz")
        ((images.enum).map fun p =>
          (entryName (sanitizeFileName (FormatChapterLabel c)) p.1, p.2)) with
    | error e0 =>
      exfalso
      have houtcome : chapterOutcome env folderID c =
          .fatal (.wrap "error uploading CBZ file" e0) := by
        unfold chapterOutcome
        simp only [hdl, createCBZ, hup]
      rw [houtcome] at h
      simp [StepOutcome.isFatal] at h
    | ok u =>
      cases u
      have houtcome : chapterOutcome env folderID c = .success := by
        unfold chapterOutcome
        simp only [hdl, createCBZ, hup]
      have heq : processChapters env folderID n (c :: rest) index t errs effs =
          processChapters env folderID n rest (index + 1)
            ((((((t.message (chapterPre index n ++ "Downloading pages for " ++
                FormatChapterLabel c)).advance
              (chapterPre index n ++ "Downloaded pages for " ++
                FormatChapterLabel c)).message
              (chapterPre index n ++ "Creating CBZ for " ++
                FormatChapterLabel c)).advance
              (chapterPre index n ++ "Created CBZ for " ++
                FormatChapterLabel c)).message
              (chapterPre index n ++ "Uploading " ++
                FormatChapterLabel c)).advance
              (chapterPre index n ++ "Uploaded " ++ FormatChapterLabel c))
            errs
            (effs ++ [Effect.download c.id] ++
              [Effect.upload folderID
                (sanitizeFileName (FormatChapterLabel c) ++ ".cbz")]) := by
        conv_lhs => rw [processChapters]
        simp only [hdl, createCBZ, hup]
      refine ⟨(((((t.message (chapterPre index n ++ "Downloading pages for " ++
            FormatChapterLabel c)).advance
          (chapterPre index n ++ "Downloaded pages for " ++
            FormatChapterLabel c)).message
          (chapterPre index n ++ "Creating CBZ for " ++
            FormatChapterLabel c)).advance
          (chapterPre index n ++ "Created CBZ for " ++
            FormatChapterLabel c)).message
          (chapterPre index n ++ "Uploading " ++
            FormatChapterLabel c)).advance
          (chapterPre index n ++ "Uploaded " ++ FormatChapterLabel c),
        effs ++ [Effect.download c.id] ++
        [Effect.upload folderID
          (sanitizeFileName (FormatChapterLabel c) ++ ".cbz")],
        ?_, ?_, rfl, ?_, ?_⟩
      · rw [heq, houtcome]
        simp only [StepOutcome.skipErr, Option.toList, List.append_nil]
      · rw [downloadIds_append, downloadIds_append]
        simp [downloadIds]
      · intro htot hcur hlt
        simp only [Tracker.message, Tracker.advance, Tracker.emit]
        rw [hcur, htot]
        split_ifs <;> omega
      · intro hinv
        exact trackerInv_advance _ _ (trackerInv_message _ _
          (trackerInv_advance _ _ (trackerInv_message _ _
            (trackerInv_advance _ _ (trackerInv_message t _ hinv)))))

theorem processChapters_step_fatal (env : Env) (folderID : String)
    (n : Nat) (c : Chapter) (rest : List Chapter) (index : Nat) (t : Tracker)
    (errs : List GoError) (effs : List Effect) (e : GoError)
    (h : chapterOutcome env folderID c = .fatal e) :
    ∃ (t' : Tracker) (effs' : List Effect),
      processChapters env folderID n (c :: rest) index t errs effs =
        ⟨some e, t', errs, effs'⟩ ∧
      downloadIds effs' = downloadIds effs ++ [c.id] ∧
      (TrackerInv t → TrackerInv t') := by
  cases hdl : env.downloadChapterImages c with
  | error e0 =>
    cases hskip : shouldSkipChapter e0 with
    | true =>
      exfalso
      have houtcome : chapterOutcome env folderID c = .skipped e0 := by
        unfold chapterOutcome
        rw [hdl]
        dsimp only
        rw [if_pos hskip]
      rw [houtcome] at h
      cases h
    | false =>
      have houtcome : chapterOutcome env folderID c =
          .fatal (.wrap "error downloading chapter images" e0) := by
        unfold chapterOutcome
        rw [hdl]
        dsimp only
        rw [if_neg (by simp [hskip])]
      rw [houtcome] at h
      injection h with h
      have heq : processChapters env folderID n (c :: rest) index t errs effs =
          ⟨some (.wrap "error downloading chapter images" e0),
            t.message (chapterPre index n ++ "Downloading pages for " ++
              FormatChapterLabel c),
            errs, effs ++ [Effect.download c.id]⟩ := by
        conv_lhs => rw [processChapters]
        dsimp only
        rw [hdl]
        dsimp only
        rw [if_neg (by simp [hskip])]
      refine ⟨t.message (chapterPre index n ++ "Downloading pages for " ++
          FormatChapterLabel c),
        effs ++ [Effect.download c.id], ?_, by
        rw [downloadIds_append]; rfl,
        fun hinv => trackerInv_message t _ hinv⟩
      rw [heq, h]
  | ok images =>
    cases hup : env.uploadFile folderID
        (sanitizeFileName (FormatChapterLabel c) ++ ".cbz")
        ((images.enum).map fun p =>
          (entryName (sanitizeFileName (FormatChapterLabel c)) p.1, p.2)) with
    | error e0 =>
      have houtcome : chapterOutcome env folderID c =
          .fatal (.wrap "error uploading CBZ file" e0) := by
        unfold chapterOutcome
        simp only [hdl, createCBZ, hup]
      rw [houtcome] at h
      injection h with h
      have heq : processChapters env folderID n (c :: rest) index t errs effs =
          ⟨some (.wrap "error uploading CBZ file" e0),
            ((((t.message (chapterPre index n ++ "Downloading pages for " ++
                FormatChapterLabel c)).advance
              (chapterPre index n ++ "Downloaded pages for " ++
                FormatChapterLabel c)).message
              (chapterPre index n ++ "Creating CBZ for " ++
                FormatChapterLabel c)).advance
              (chapterPre index n ++ "Created CBZ for " ++
                FormatChapterLabel c)).message
              (chapterPre index n ++ "Uploading " ++ FormatChapterLabel c),
            errs, effs ++ [Effect.download c.id] ++
              [Effect.upload folderID
                (sanitizeFileName (FormatChapterLabel c) ++ ".cbz")]⟩ := by
        conv_lhs => rw [processChapters]
        simp only [hdl, createCBZ, hup]
      refine ⟨(((t.message (chapterPre index n ++ "Downloading pages for " ++
            FormatChapterLabel c)).advance
          (chapterPre index n ++ "Downloaded pages for " ++
            FormatChapterLabel c)).message
          (chapterPre index n ++ "Creating CBZ for " ++
            FormatChapterLabel c)).advance
          (chapterPre index n ++ "Created CBZ for " ++
            FormatChapterLabel c) |>.message
          (chapterPre index n ++ "Uploading " ++ FormatChapterLabel c),
        effs ++ [Effect.download c.id] ++
        [Effect.upload folderID
          (sanitizeFileName (FormatChapterLabel c) ++ ".cbz")],
        ?_, by rw [downloadIds_append, downloadIds_append]; simp [downloadIds],
        fun hinv => trackerInv_message _ _ (trackerInv_advance _ _
          (trackerInv_message _ _ (trackerInv_advance _ _
            (trackerInv_message t _ hinv))))⟩
      rw [heq, h]
    | ok u =>
      exfalso
      cases u
      have houtcome : chapterOutcome env folderID c = .success := by
        unfold chapterOutcome
        simp only [hdl, createCBZ, hup]
      rw [houtcome] at h
      cases h

theorem processChapters_all_nonfatal (env : Env) (folderID : String)
    (n : Nat) :
    ∀ (rest : List Chapter) (index : Nat) (t : Tracker)
      (errs : List GoError) (effs : List Effect),
      t.total = n * 3 → t.current = index * 3 → index + rest.length = n →
      (∀ c ∈ rest, (chapterOutcome env folderID c).isFatal = false) →
      (processChapters env folderID n rest index t errs effs).res = none ∧
      (processChapters env folderID n rest index t errs effs).errs =
        errs ++ skippedErrs env folderID rest ∧
      (processChapters env folderID n rest index t errs effs).tracker.current =
        n * 3 ∧
      downloadIds (processChapters env folderID n rest index t errs effs).effects =
        downloadIds effs ++ rest.map (·.id) := by
  intro rest
  induction rest with
  | nil =>
    intro index t errs effs htot hcur hidx _
    have h0 : processChapters env folderID n [] index t errs effs =
        ⟨none, t, errs, effs⟩ := rfl
    rw [h0]
    simp only [List.length_nil, Nat.add_zero] at hidx
    refine ⟨rfl, by simp [skippedErrs], ?_, by simp⟩
    show t.current = n * 3
    omega
  | cons c rest ih =>
    intro index t errs effs htot hcur hidx hnf
    simp only [List.length_cons] at hidx
    have hlt : index < n := by omega
    obtain ⟨t', effs', heq, hdl, htot', hcur', -⟩ :=
      processChapters_step_nonfatal env folderID n c rest index t errs effs
        (hnf c (List.mem_cons_self c rest))
    rw [heq]
    obtain ⟨r1, r2, r3, r4⟩ := ih (index + 1) t'
      (errs ++ (chapterOutcome env folderID c).skipErr.toList) effs'
      (htot' ▸ htot) (hcur' htot hcur hlt)
      (by omega)
      (fun c' hc' => hnf c' (List.mem_cons_of_mem c hc'))
    refine ⟨r1, ?_, r3, ?_⟩
    · rw [r2, skippedErrs_cons, List.append_assoc]
    · rw [r4, hdl, List.map_cons, List.append_assoc]
      rfl

theorem processChapters_first_fatal (env : Env) (folderID : String)
    (n : Nat) :
    ∀ (done : List Chapter) (c : Chapter) (after : List Chapter)
      (index : Nat) (t : Tracker) (errs : List GoError) (effs : List Effect)
      (e : GoError),
      (∀ c' ∈ done, (chapterOutcome env folderID c').isFatal = false) →
      chapterOutcome env folderID c = .fatal e →
      (processChapters env folderID n (done ++ c :: after) index t errs effs).res =
        some e ∧
      downloadIds
          (processChapters env folderID n (done ++ c :: after) index t errs effs).effects =
        downloadIds effs ++ (done ++ [c]).map (·.id) := by
  intro done
  induction done with
  | nil =>
    intro c after index t errs effs e _ hf
    obtain ⟨t', effs', heq, hdl, -⟩ :=
      processChapters_step_fatal env folderID n c after index t errs effs e hf
    rw [List.nil_append, heq]
    exact ⟨rfl, by rw [hdl]; rfl⟩
  | cons d done ih =>
    intro c after index t errs effs e hnf hf
    obtain ⟨t', effs', heq, hdl, -, -, -⟩ :=
      processChapters_step_nonfatal env folderID n d (done ++ c :: after)
        index t errs effs (hnf d (List.mem_cons_self d done))
    rw [List.cons_append, heq]
    obtain ⟨r1, r2⟩ := ih c after (index + 1) t'
      (errs ++ (chapterOutcome env folderID d).skipErr.toList) effs' e
      (fun c' hc' => hnf c' (List.mem_cons_of_mem d hc')) hf
    refine ⟨r1, ?_⟩
    rw [r2, hdl]
    simp [List.append_assoc]

/-- The only run shapes of the orchestrator body once the batch is
non-empty: `DownloadAndUploadMangaChapters` is `processChapters` on the
run's folder id, started from a fresh tracker. -/
theorem run_eq_processChapters (env : Env) (mangaTitle : String)
    (chapters : List Chapter) (hne : chapters ≠ []) :
    ∃ pre : List ProgressUpdate,
      (∀ u ∈ pre, u.current = 0 ∧ u.total = 0 ∧ u.done = false ∧ u.err = none) ∧
      DownloadAndUploadMangaChapters env mangaTitle chapters =
        (let lo := processChapters env (runFolderID env mangaTitle)
          chapters.length chapters 0
          ⟨chapters.length * stepsPerChapter, 0, []⟩ []
          [Effect.createFolder (sanitizeFileName mangaTitle)]
        ⟨match lo.res with
          | some e => some e
          | none =>
            if lo.errs.isEmpty then none
            else some (.wrap ("skipped " ++ toString lo.errs.length ++
              " chapter(s)") (.join lo.errs)),
          pre, lo.tracker, lo.errs, lo.effects⟩) := by
  have hne' : ¬ chapters.isEmpty := by
    simpa [List.isEmpty_iff] using hne
  cases hcf : env.createFolder (sanitizeFileName mangaTitle) with
  | ok id =>
    have hfid : runFolderID env mangaTitle = id := by
      unfold runFolderID
      rw [hcf]
    refine ⟨[], by simp, ?_⟩
    unfold DownloadAndUploadMangaChapters
    rw [if_neg hne']
    dsimp only
    rw [hcf, hfid]
  | error e =>
    have hfid : runFolderID env mangaTitle = "" := by
      unfold runFolderID
      rw [hcf]
    refine ⟨[⟨0, 0, "Unable to create folder, uploading to root", false, none⟩],
      by simp, ?_⟩
    unfold DownloadAndUploadMangaChapters
    rw [if_neg hne']
    dsimp only
    rw [hcf, hfid]

/-- Claim C2: in a batch run, episodes failing with skip-classified
errors are recorded and skipped while the loop continues (ending with the
full `3 × count` steps advanced), any fatal episode aborts the run with
its error before any later episode's download is attempted, and an
all-processed run with at least one skip returns the single aggregate
error joining the skipped episodes' reasons in order. -/
theorem C2_orchestrator_skip_vs_abort (env : Env) (mangaTitle : String)
    (chapters : List Chapter) (hne : chapters ≠ []) :
    ((∀ c ∈ chapters,
        (chapterOutcome env (runFolderID env mangaTitle) c).isFatal = false) →
      downloadIds (DownloadAndUploadMangaChapters env mangaTitle chapters).effects =
        chapters.map (·.id) ∧
      (DownloadAndUploadMangaChapters env mangaTitle chapters).errs =
        skippedErrs env (runFolderID env mangaTitle) chapters ∧
      (DownloadAndUploadMangaChapters env mangaTitle chapters).tracker.current =
        chapters.length * 3 ∧
      (skippedErrs env (runFolderID env mangaTitle) chapters = [] →
        (DownloadAndUploadMangaChapters env mangaTitle chapters).res = none) ∧
      (skippedErrs env (runFolderID env mangaTitle) chapters ≠ [] →
        (DownloadAndUploadMangaChapters env mangaTitle chapters).res =
          some (.wrap ("skipped " ++
            toString (skippedErrs env (runFolderID env mangaTitle) chapters).length ++
            " chapter(s)")
          (.join (skippedErrs env (runFolderID env mangaTitle) chapters))))) ∧
    (∀ (done : List Chapter) (c : Chapter) (after : List Chapter) (e : GoError),
      chapters = done ++ c :: after →
      (∀ c' ∈ done,
        (chapterOutcome env (runFolderID env mangaTitle) c').isFatal = false) →
      chapterOutcome env (runFolderID env mangaTitle) c = .fatal e →
      (DownloadAndUploadMangaChapters env mangaTitle chapters).res = some e ∧
      downloadIds (DownloadAndUploadMangaChapters env mangaTitle chapters).effects =
        (done ++ [c]).map (·.id)) := by
  obtain ⟨pre, -, hrun⟩ := run_eq_processChapters env mangaTitle chapters hne
  have herrs : (DownloadAndUploadMangaChapters env mangaTitle chapters).errs =
      (processChapters env (runFolderID env mangaTitle) chapters.length
        chapters 0 ⟨chapters.length * stepsPerChapter, 0, []⟩ []
        [Effect.createFolder (sanitizeFileName mangaTitle)]).errs := by
    rw [hrun]
  have heffects :
      (DownloadAndUploadMangaChapters env mangaTitle chapters).effects =
      (processChapters env (runFolderID env mangaTitle) chapters.length
        chapters 0 ⟨chapters.length * stepsPerChapter, 0, []⟩ []
        [Effect.createFolder (sanitizeFileName mangaTitle)]).effects := by
    rw [hrun]
  have htracker :
      (DownloadAndUploadMangaChapters env mangaTitle chapters).tracker =
      (processChapters env (runFolderID env mangaTitle) chapters.length
        chapters 0 ⟨chapters.length * stepsPerChapter, 0, []⟩ []
        [Effect.createFolder (sanitizeFileName mangaTitle)]).tracker := by
    rw [hrun]
  have hres : (DownloadAndUploadMangaChapters env mangaTitle chapters).res =
      (match (processChapters env (runFolderID env mangaTitle) chapters.length
          chapters 0 ⟨chapters.length * stepsPerChapter, 0, []⟩ []
          [Effect.createFolder (sanitizeFileName mangaTitle)]).res with
        | some e => some e
        | none =>
          if (processChapters env (runFolderID env mangaTitle) chapters.length
              chapters 0 ⟨chapters.length * stepsPerChapter, 0, []⟩ []
              [Effect.createFolder (sanitizeFileName mangaTitle)]).errs.isEmpty
          then none
          else some (.wrap ("skipped " ++
            toString (processChapters env (runFolderID env mangaTitle)
              chapters.length chapters 0
              ⟨chapters.length * stepsPerChapter, 0, []⟩ []
              [Effect.createFolder (sanitizeFileName mangaTitle)]).errs.length ++
            " chapter(s)")
            (.join (processChapters env (runFolderID env mangaTitle)
              chapters.length chapters 0
              ⟨chapters.length * stepsPerChapter, 0, []⟩ []
              [Effect.createFolder (sanitizeFileName mangaTitle)]).errs))) := by
    rw [hrun]
  constructor
  · intro hnf
    obtain ⟨r1, r2, r3, r4⟩ := processChapters_all_nonfatal env
      (runFolderID env mangaTitle) chapters.length chapters 0
      ⟨chapters.length * stepsPerChapter, 0, []⟩ []
      [Effect.createFolder (sanitizeFileName mangaTitle)]
      rfl rfl (by omega) hnf
    refine ⟨?_, ?_, ?_, ?_, ?_⟩
    · rw [heffects, r4]
      rfl
    · rw [herrs, r2]
      rfl
    · rw [htracker]
      exact r3
    · intro hsk
      rw [hres, r1]
      dsimp only
      rw [r2]
      simp [hsk]
    · intro hsk
      rw [hres, r1]
      dsimp only
      rw [r2]
      simp only [List.nil_append]
      rw [if_neg (by simpa [List.isEmpty_iff] using hsk)]
  · intro done c after e hsplit hnf hf
    subst hsplit
    obtain ⟨r1, r2⟩ := processChapters_first_fatal env
      (runFolderID env mangaTitle) (done ++ c :: after).length done c after 0
      ⟨(done ++ c :: after).length * stepsPerChapter, 0, []⟩ []
      [Effect.createFolder (sanitizeFileName mangaTitle)] e hnf hf
    constructor
    · rw [hres, r1]
    · rw [heffects, r2]
      rfl

/-- Witness for C2: a two-episode batch whose second episode is
skip-classified ends with the aggregate skip error, and a one-episode
batch whose upload fails aborts with that upload error. -/
theorem C2_orchestrator_skip_vs_abort_witness :
    (DownloadAndUploadMangaChapters envSkipMix "T" [chA, chB]).res =
      some (.wrap ("skipped " ++ toString (1 : Nat) ++ " chapter(s)")
        (.join [.wrap "m" .errChapterMetadataMissing])) ∧
    (DownloadAndUploadMangaChapters envUploadFail "T" [chA]).res =
      some (.wrap "error uploading CBZ file" (.plain "500")) := by
  constructor
  · exact ((C2_orchestrator_skip_vs_abort envSkipMix "T" [chA, chB]
      (List.cons_ne_nil _ _)).1 (by decide)).2.2.2.2 (List.cons_ne_nil _ _)
  · exact ((C2_orchestrator_skip_vs_abort envUploadFail "T" [chA]
      (List.cons_ne_nil _ _)).2 [] chA []
      (.wrap "error uploading CBZ file" (.plain "500")) rfl (by simp) rfl).1

theorem processChapters_trackerInv (env : Env) (folderID : String)
    (n : Nat) :
    ∀ (rest : List Chapter) (index : Nat) (t : Tracker)
      (errs : List GoError) (effs : List Effect), TrackerInv t →
      TrackerInv (processChapters env folderID n rest index t errs effs).tracker := by
  intro rest
  induction rest with
  | nil =>
    intro index t errs effs hinv
    exact hinv
  | cons c rest ih =>
    intro index t errs effs hinv
    cases hfat : (chapterOutcome env folderID c).isFatal with
    | false =>
      obtain ⟨t', effs', heq, -, -, -, hpre⟩ :=
        processChapters_step_nonfatal env folderID n c rest index t errs effs
          hfat
      rw [heq]
      exact ih (index + 1) t' _ effs' (hpre hinv)
    | true =>
      have hex : ∃ e, chapterOutcome env folderID c = .fatal e := by
        cases hoc : chapterOutcome env folderID c with
        | success => rw [hoc] at hfat; cases hfat
        | skipped e => rw [hoc] at hfat; cases hfat
        | fatal e => exact ⟨e, rfl⟩
      obtain ⟨e, he⟩ := hex
      obtain ⟨t', effs', heq, -, hpre⟩ :=
        processChapters_step_fatal env folderID n c rest index t errs effs e he
      rw [heq]
      exact hpre hinv

theorem chain'_current_of_all_zero (l : List ProgressUpdate)
    (h : ∀ u ∈ l, u.current = 0) :
    List.Chain' (fun a b => a.current ≤ b.current) l := by
  induction l with
  | nil => exact List.chain'_nil
  | cons a l ih =>
    cases l with
    | nil => exact List.chain'_singleton _
    | cons b l2 =>
      refine List.chain'_cons.mpr
        ⟨?_, ih fun u hu => h u (List.mem_cons_of_mem a hu)⟩
      rw [h a (List.mem_cons_self _ _), h b (by simp)]

/-- Counterexample to claim C4 as stated: in a fully successful
one-episode run, `current` is NOT monotonically non-decreasing over the
whole emitted sequence — the tracker reaches 3 and the terminal
`done = true` update then carries `current = 0`. -/
theorem C4_counterexample :
    ¬ List.Chain' (· ≤ ·)
      ((startDownload envOneOk "T" [chA]).map (·.current)) := by
  have h : (startDownload envOneOk "T" [chA]).map (·.current) =
      [0, 1, 1, 2, 2, 3, 0] := rfl
  rw [h]
  intro hchain
  simp only [List.chain'_cons, List.chain'_singleton, and_true] at hchain
  omega

/-- Claim C4 as amended: within one run, `current` is monotonically
non-decreasing across every update before the terminal one (the terminal
`done = true` update resets `current` and `total` to 0), `current` never
exceeds `total` in any update, and exactly one update has `done = true` —
the last one emitted before the stream closes. -/
theorem C4_progress_stream (env : Env) (mangaTitle : String)
    (chapters : List Chapter) :
    List.Chain' (fun a b => a.current ≤ b.current)
      ((startDownload env mangaTitle chapters).dropLast) ∧
    (∀ u ∈ startDownload env mangaTitle chapters, u.current ≤ u.total) ∧
    (startDownload env mangaTitle chapters).countP (·.done) = 1 ∧
    (∃ u, (startDownload env mangaTitle chapters).getLast? = some u ∧
      u.done = true) := by
  have hsd : startDownload env mangaTitle chapters =
      (DownloadAndUploadMangaChapters env mangaTitle chapters).updates ++
      [⟨0, 0, "", true,
        (DownloadAndUploadMangaChapters env mangaTitle chapters).res⟩] := rfl
  have hupd : (∀ u ∈ (DownloadAndUploadMangaChapters env mangaTitle
        chapters).updates, u.current ≤ u.total ∧ u.done = false) ∧
      List.Chain' (fun a b => a.current ≤ b.current)
        (DownloadAndUploadMangaChapters env mangaTitle chapters).updates := by
    by_cases hne : chapters = []
    · subst hne
      have h0 : (DownloadAndUploadMangaChapters env mangaTitle []).updates =
          [] := rfl
      rw [h0]
      exact ⟨fun u hu => absurd hu (List.not_mem_nil u), List.chain'_nil⟩
    · obtain ⟨pre, hpre0, hrun⟩ :=
        run_eq_processChapters env mangaTitle chapters hne
      have hpre : (DownloadAndUploadMangaChapters env mangaTitle
          chapters).preUpdates = pre := by rw [hrun]
      have htr : (DownloadAndUploadMangaChapters env mangaTitle
          chapters).tracker =
          (processChapters env (runFolderID env mangaTitle) chapters.length
            chapters 0 ⟨chapters.length * stepsPerChapter, 0, []⟩ []
            [Effect.createFolder (sanitizeFileName mangaTitle)]).tracker := by
        rw [hrun]
      have hinv : TrackerInv (processChapters env (runFolderID env mangaTitle)
          chapters.length chapters 0
          ⟨chapters.length * stepsPerChapter, 0, []⟩ []
          [Effect.createFolder (sanitizeFileName mangaTitle)]).tracker :=
        processChapters_trackerInv env (runFolderID env mangaTitle)
          chapters.length chapters 0
          ⟨chapters.length * stepsPerChapter, 0, []⟩ []
          [Effect.createFolder (sanitizeFileName mangaTitle)]
          ⟨List.chain'_nil, fun u hu => absurd hu (List.not_mem_nil u),
            Nat.zero_le _⟩
      obtain ⟨hchain, hout, hct⟩ := hinv
      have hu_eq : (DownloadAndUploadMangaChapters env mangaTitle
          chapters).updates = pre ++
          (processChapters env (runFolderID env mangaTitle) chapters.length
            chapters 0 ⟨chapters.length * stepsPerChapter, 0, []⟩ []
            [Effect.createFolder (sanitizeFileName mangaTitle)]).tracker.out := by
        show (DownloadAndUploadMangaChapters env mangaTitle
          chapters).preUpdates ++ _ = _
        rw [hpre, htr]
      rw [hu_eq]
      constructor
      · intro u hu
        rcases List.mem_append.mp hu with h' | h'
        · obtain ⟨hc0, ht0, hd0, -⟩ := hpre0 u h'
          exact ⟨by rw [hc0, ht0], hd0⟩
        · obtain ⟨hle, htt, hdd, -⟩ := hout u h'
          refine ⟨?_, hdd⟩
          rw [htt]
          exact le_trans hle hct
      · refine List.chain'_append.mpr
          ⟨chain'_current_of_all_zero pre (fun u hu => (hpre0 u hu).1),
            hchain, ?_⟩
        intro x hx y hy
        have hxmem : x ∈ pre := by
          rcases List.mem_getLast?_eq_getLast hx with ⟨hne', hxe⟩
          rw [hxe]
          exact List.getLast_mem hne'
        rw [(hpre0 x hxmem).1]
        exact Nat.zero_le _
  refine ⟨?_, ?_, ?_, ?_⟩
  · rw [hsd, List.dropLast_concat]
    exact hupd.2
  · intro u hu
    rw [hsd] at hu
    rcases List.mem_append.mp hu with h' | h'
    · exact (hupd.1 u h').1
    · simp only [List.mem_singleton] at h'
      subst h'
      exact le_refl 0
  · rw [hsd, List.countP_append]
    have h1 : (DownloadAndUploadMangaChapters env mangaTitle
        chapters).updates.countP (·.done) = 0 := by
      rw [List.countP_eq_zero]
      intro u hu
      simp [(hupd.1 u hu).2]
    rw [h1]
    rfl
  · rw [hsd, List.getLast?_concat]
    exact ⟨_, rfl, rfl⟩

/-- Witness for C4 at a concrete one-episode run: the terminal update
respects `current ≤ total` and the stream carries exactly one
`done = true` update. -/
theorem C4_progress_stream_witness :
    (⟨0, 0, "", true, none⟩ : ProgressUpdate).current ≤
      (⟨0, 0, "", true, none⟩ : ProgressUpdate).total ∧
    (startDownload envOneOk "T" [chA]).countP (·.done) = 1 := by
  constructor
  · apply (C4_progress_stream envOneOk "T" [chA]).2.1
    have hsd : startDownload envOneOk "T" [chA] =
        (DownloadAndUploadMangaChapters envOneOk "T" [chA]).updates ++
        [⟨0, 0, "", true,
          (DownloadAndUploadMangaChapters envOneOk "T" [chA]).res⟩] := rfl
    rw [hsd]
    exact List.mem_append_right _ (List.mem_singleton_self _)
  · exact (C4_progress_stream envOneOk "T" [chA]).2.2.1

end BooxServe
